import Mathlib

/-!
Shallow embedding of the DiscordAutoDelete core: the durable expiration
registry (`MessageRegistry.py`) and the drain / scheduling logic of
`AutoDeleteBot.py`.

Modelling conventions:
- Snowflake identifiers and points in time are modelled as `Nat`.  The
  codebase converts between datetimes and snowflakes with
  `discord.utils.time_snowflake` / `snowflake_time`, a strictly monotone
  injection; all comparisons and additions in the source happen on one side
  of that encoding at a time, so times are represented directly at snowflake
  granularity and `created_at` of a message equals its id-derived timestamp.
- The SQLite database is a pair of row lists.  The `channels` table has
  `channel_id` as PRIMARY KEY and the `messages` table has
  `(channel_id, message_id)` as PRIMARY KEY; theorems that need key
  uniqueness take it as a hypothesis.  `PRAGMA foreign_keys = ON` is active,
  so `DELETE FROM channels` cascades to `messages` rows of the deleted
  channel (`ON DELETE CASCADE`).
- The aiosqlite connection holds at most one open transaction.  The registry
  state therefore carries both the durable (last committed) database and the
  working database seen by the connection; `commit` publishes the working
  state, `rollback` restores the committed one.
-/

namespace DiscordAutoDelete

/-- Channel configuration dataclass (`MessageRegistry.py`, `AutoDeleteChannel`):
id, retention duration in seconds, and the `after` cutoff object id. -/
structure AutoDeleteChannel where
  id : Nat
  duration : Nat
  after : Nat
  deriving DecidableEq, Repr

/-- Row of the `channels` table. -/
structure ChannelRow where
  channel_id : Nat
  duration_seconds : Nat
  after : Nat
  deriving DecidableEq, Repr

/-- Row of the `messages` table. -/
structure MessageRow where
  channel_id : Nat
  message_id : Nat
  delete_at : Nat
  deriving DecidableEq, Repr

/-- Durable database contents: the two tables created by `_init_db`. -/
structure DB where
  channels : List ChannelRow
  messages : List MessageRow
  deriving DecidableEq, Repr

/-- Registry state: the last committed database, the working database of the
connection (including any open transaction), and the in-memory channel
config mirror `self.channels` (an assoc list keyed by channel id). -/
structure MessageRegistry where
  committed : DB
  db : DB
  channels : List (Nat × AutoDeleteChannel)
  deriving DecidableEq, Repr

namespace MessageRegistry

/-- `await self.db.commit()`: the working state becomes durable. -/
def commitReg (r : MessageRegistry) : MessageRegistry :=
  { r with committed := r.db }

/-- `await self.db.rollback()`: the working state reverts to the durable one. -/
def rollbackReg (r : MessageRegistry) : MessageRegistry :=
  { r with db := r.committed }

/-- Lookup of a `channels` row by primary key (the SQL `INNER JOIN` and the
`WHERE channel_id = ?` filters resolve at most one row because `channel_id`
is the PRIMARY KEY). -/
def lookupChannelRow (db : DB) (cid : Nat) : Option ChannelRow :=
  db.channels.find? (fun c => c.channel_id == cid)

/-- Lookup in the in-memory mirror: `self.channels.get(channel_id)`. -/
def mirrorGet (r : MessageRegistry) (cid : Nat) : Option AutoDeleteChannel :=
  (r.channels.find? (fun p => p.1 == cid)).map Prod.snd

/-- `del self.channels[channel]` on the mirror. -/
def mirrorDel (m : List (Nat × AutoDeleteChannel)) (cid : Nat) :
    List (Nat × AutoDeleteChannel) :=
  m.filter (fun p => p.1 != cid)

/-- `self.channels[cfg.id] = cfg` on the mirror. -/
def mirrorSet (m : List (Nat × AutoDeleteChannel)) (cfg : AutoDeleteChannel) :
    List (Nat × AutoDeleteChannel) :=
  (cfg.id, cfg) :: m.filter (fun p => p.1 != cfg.id)

/-- `DELETE FROM channels WHERE channel_id = ?` with `ON DELETE CASCADE` under
`PRAGMA foreign_keys = ON`: deleting the parent row also deletes the
`messages` rows that referenced it.  If no parent row matches, nothing is
deleted (and under the foreign key constraint no orphan child rows can exist
anyway). -/
def deleteChannelRow (db : DB) (cid : Nat) : DB :=
  if db.channels.any (fun c => c.channel_id == cid) then
    { channels := db.channels.filter (fun c => c.channel_id != cid)
      messages := db.messages.filter (fun m => m.channel_id != cid) }
  else db

/-- The WHERE clause of the SELECT in `pop_expired_messages`
(`MessageRegistry.py` lines 76-84): the row joins with its channel row and
satisfies `now >= delete_at AND message_id > channels.after`. -/
def rowVisible (db : DB) (now : Nat) (m : MessageRow) : Bool :=
  match lookupChannelRow db m.channel_id with
  | some c => decide (m.delete_at ≤ now) && decide (c.after < m.message_id)
  | none => false

/-- The SELECT of `pop_expired_messages` (`MessageRegistry.py` lines 76-84):
rows of `messages` joined with their channel row, kept when
`now >= delete_at AND message_id > channels.after`. -/
def expiredSelect (db : DB) (now : Nat) : List MessageRow :=
  db.messages.filter (rowVisible db now)

/-- `pop_expired_messages` (`MessageRegistry.py` lines 71-99): selects the
expired rows that pass the `after` cutoff, ordered by channel id
(`ORDER BY messages.channel_id`), returns them as (channel id, message id)
pairs, then issues `DELETE FROM messages WHERE ? >= delete_at` — the delete
predicate deliberately omits the `after` filter.  The delete opens an
implicit transaction; nothing is committed here. -/
def pop_expired_messages (r : MessageRegistry) (now : Nat) :
    List (Nat × Nat) × MessageRegistry :=
  let selected :=
    (expiredSelect r.db now).insertionSort
      (fun a b => a.channel_id ≤ b.channel_id)
  let msgs := selected.map (fun m => (m.channel_id, m.message_id))
  (msgs,
    { r with db :=
        { r.db with messages :=
            r.db.messages.filter (fun m => !(decide (m.delete_at ≤ now))) } })

/-- `register_message` (`MessageRegistry.py` lines 125-138): if the channel is
in the in-memory mirror, insert `(channel_id, message_id, created_at +
duration)` into `messages` and commit, returning the deadline; otherwise
return `none`.  A duplicate `(channel_id, message_id)` key would raise an
integrity error in the source; theorems assume a fresh key. -/
def register_message (r : MessageRegistry) (channel_id message_id created_at : Nat) :
    Option Nat × MessageRegistry :=
  match mirrorGet r channel_id with
  | none => (none, r)
  | some cfg =>
      let delete_at := created_at + cfg.duration
      let r1 := { r with db :=
        { r.db with messages :=
            r.db.messages ++ [⟨channel_id, message_id, delete_at⟩] } }
      (some delete_at, commitReg r1)

/-- `register_channel` (`MessageRegistry.py` lines 140-153): asserts
`duration > 0` (modelled as `none` on violation), deletes any existing
`channels` row (cascading to its pending messages), inserts the new row,
commits, and only then updates the in-memory mirror. -/
def register_channel (r : MessageRegistry) (cfg : AutoDeleteChannel) :
    Option MessageRegistry :=
  if cfg.duration = 0 then none
  else
    let db1 := deleteChannelRow r.db cfg.id
    let db2 := { db1 with channels :=
      db1.channels ++ [⟨cfg.id, cfg.duration, cfg.after⟩] }
    let r1 := commitReg { r with db := db2 }
    some { r1 with channels := mirrorSet r1.channels cfg }

/-- `deregister_channel` (`MessageRegistry.py` lines 155-164): if the channel
is absent from the mirror, return `false` without touching the database;
otherwise delete it from the mirror first, then delete the `channels` row
(cascading to pending messages) and commit, returning `true`. -/
def deregister_channel (r : MessageRegistry) (channel : Nat) :
    Bool × MessageRegistry :=
  match mirrorGet r channel with
  | none => (false, r)
  | some _ =>
      let r1 := { r with channels := mirrorDel r.channels channel }
      let r2 := { r1 with db := deleteChannelRow r1.db channel }
      (true, commitReg r2)

end MessageRegistry

open MessageRegistry

/-! ### Batch deletion executor (`AutoDeleteBot.clear_expired_messages`) -/

/-- A popped message as seen by the executor: a `discord.PartialMessage`,
whose `created_at` is derived from its snowflake id (`snowflake_time` is a
monotone injection, so `created_at` is represented at snowflake
granularity alongside `id`). -/
structure PMsg where
  channel_id : Nat
  id : Nat
  created_at : Nat
  deriving DecidableEq, Repr, Inhabited

/-- `is_protected_message` (`AutoDeleteBot.py` lines 128-134), once awaited:
`message.fetch()` either yields the pinned flag (`some pinned`) or raises a
`discord.HTTPException` (`none`), in which case the message is reported
unprotected. -/
def is_protected_message (fetchResult : Option Bool) : Bool :=
  match fetchResult with
  | some pinned => pinned
  | none => false

/-- The pin-protection filter applied to one channel group
(`AutoDeleteBot.py` lines 153-167).  `pinsFetch` is the outcome of
`partial_channel.pins()`: `some ids` on success, `none` on
`discord.HTTPException` (the `except` branch passes, leaving the group
unfiltered).  For a group of exactly one message the source tests
`message_group and self.is_protected_message(message_group[0])` WITHOUT
awaiting the coroutine: the coroutine object is always truthy, so the
singleton group is always emptied, no matter the pinned status. -/
def filterPins (protect_pins : Bool) (pinsFetch : Option (List Nat))
    (group : List PMsg) : List PMsg :=
  if protect_pins then
    if 1 < group.length then
      match pinsFetch with
      | some channel_pins => group.filter (fun m => !(channel_pins.contains m.id))
      | none => group
    else if !group.isEmpty then [] else group
  else group

/-- Hypothetical awaited version of the singleton branch, following the
claim: fetch the single message and exclude it iff it is pinned, failing
open when the fetch itself fails. -/
def filterSingletonAwaited (fetchResult : Option Bool) (group : List PMsg) :
    List PMsg :=
  if !group.isEmpty && is_protected_message fetchResult then [] else group

/-- One deletion API call issued by the executor: a single-message delete
(`m.delete()`) or a bulk delete of a chunk (`channel.delete_messages`). -/
inductive DeletionCall where
  | single (channel_id message_id : Nat)
  | bulk (channel_id : Nat) (ids : List Nat)
  deriving DecidableEq, Repr

/-- The chunking loop `for start in range(0, len(bulk_deletable), 100)`
(`AutoDeleteBot.py` lines 182-185): slices of at most 100 messages. -/
def bulkChunks (l : List PMsg) : List (List PMsg) :=
  (List.range ((l.length + 99) / 100)).map (fun i => (l.drop (i * 100)).take 100)

/-- Deletion planning for one channel group (`AutoDeleteBot.py` lines
168-190), after pin filtering.  `time_limit` is `now - 13.8 days` at
snowflake granularity; `fetchOk` is whether resolving the channel object
succeeded (on `discord.HTTPException` the source `continue`s, skipping the
whole channel including its non-bulk-deletable messages).  A bulk-eligible
group of exactly one gets a single delete; two or more are chunked into
bulk calls of at most 100; every too-old message gets its own single
delete. -/
def planChannelDeletions (time_limit : Nat) (fetchOk : Bool) (cid : Nat)
    (group : List PMsg) : List DeletionCall :=
  let bulk_deletable := group.filter (fun m => decide (time_limit < m.created_at))
  let non_bulk_deletable := group.filter (fun m => decide (m.created_at ≤ time_limit))
  let singles := non_bulk_deletable.map (fun m => DeletionCall.single cid m.id)
  if bulk_deletable.length = 1 then
    DeletionCall.single cid bulk_deletable.headI.id :: singles
  else if !bulk_deletable.isEmpty then
    if fetchOk then
      (bulkChunks bulk_deletable).map
        (fun c => DeletionCall.bulk cid (c.map PMsg.id)) ++ singles
    else []
  else singles

/-- Size-extraction for bulk calls, to count and measure the bulk-delete
calls in a plan. -/
def bulkSize : DeletionCall → Option Nat
  | .bulk _ ids => some ids.length
  | .single _ _ => none

/-- Outcome of one awaited deletion call, as classified by the result loop
(`AutoDeleteBot.py` lines 194-215). -/
inductive CallResult where
  | ok
  | forbidden
  | notFound
  | httpError
  deriving DecidableEq, Repr

/-- Whether a call result escapes the loop: `discord.Forbidden` and
`discord.NotFound` are absorbed with `continue`; any other exception is
re-raised. -/
def callFatal : CallResult → Bool
  | .httpError => true
  | _ => false

/-- Outcome of resolving a channel object for a bulk deletion
(`AutoDeleteBot.py` lines 177-179 with `fetch_or_deregister_channel`, lines
99-108): `cached` when `get_channel` returns the channel, `fetched` when
`fetch_channel` succeeds, `notFound` when `fetch_channel` raises
`discord.NotFound` (which triggers `deregister_channel` — including its
`db.commit()` — before the re-raised `NotFound` is caught by the `except
discord.HTTPException: continue` in the caller), and `httpError` for any
other `discord.HTTPException` from the fetch (plain `continue`). -/
inductive ChannelResolution where
  | cached
  | fetched
  | notFound
  | httpError
  deriving DecidableEq, Repr

/-- A popped `(channel_id, message_id)` pair as the executor sees it:
`_row_to_partial_message` builds a `discord.PartialMessage` whose
`created_at` is derived from its snowflake id. -/
def toPMsg (p : Nat × Nat) : PMsg :=
  ⟨p.1, p.2, p.2⟩

/-- The registry-state effect of processing one per-channel group in the
planning loop of `clear_expired_messages` (`AutoDeleteBot.py` lines
149-190): pin filtering may `continue`; a group with exactly one
bulk-eligible message plans a single delete with no channel resolution; a
group with two or more resolves the channel, and when the fetch raises
`NotFound` the helper runs `deregister_channel` — whose `db.commit()`
commits the connection's open transaction mid-pass — before the caller
catches the re-raised exception and continues.  Everything else leaves the
registry untouched (only deletion coroutines are collected). -/
def driveGroup (protect_pins : Bool) (pinsFetch : Nat → Option (List Nat))
    (resolve : Nat → ChannelResolution) (time_limit : Nat)
    (r : MessageRegistry) (group : List (Nat × Nat)) : MessageRegistry :=
  match group.head? with
  | none => r
  | some p =>
      let cid := p.1
      let pgroup := filterPins protect_pins (pinsFetch cid) (group.map toPMsg)
      if protect_pins && pgroup.isEmpty then r
      else
        let bulk_deletable :=
          pgroup.filter (fun m => decide (time_limit < m.created_at))
        if bulk_deletable.length = 1 then r
        else if !bulk_deletable.isEmpty then
          match resolve cid with
          | .notFound => (deregister_channel r cid).2
          | _ => r
        else r

/-- `clear_expired_messages` at the registry-transaction level
(`AutoDeleteBot.py` lines 136-220 with `MessageRegistry.__aexit__` lines
172-176): pop the expired batch (opening a transaction), group it by
channel (the pop output is ordered by channel id, matching
`itertools.groupby`), run the planning loop — whose channel resolutions can
invoke `deregister_channel` and thereby commit the open transaction
mid-pass — then await all deletion calls (`results`, one entry per call,
zipped against the popped messages) and let the `async with
self.message_registry` block commit on clean exit or roll back when a
fatal result is re-raised. -/
def clear_expired_messages (protect_pins : Bool)
    (pinsFetch : Nat → Option (List Nat)) (resolve : Nat → ChannelResolution)
    (time_limit : Nat) (r : MessageRegistry) (now : Nat)
    (results : List CallResult) : List (Nat × Nat) × MessageRegistry :=
  let popped := pop_expired_messages r now
  let groups := popped.1.splitBy (fun a b => a.1 == b.1)
  let r1 := groups.foldl
    (driveGroup protect_pins pinsFetch resolve time_limit) popped.2
  if ((popped.1.zip results).map Prod.snd).any callFatal then
    (popped.1, rollbackReg r1)
  else
    (popped.1, commitReg r1)

/-! ### Mutation-order traces for the config store

`register_channel` and `deregister_channel` are the only operations that
mutate the in-memory mirror.  Their primitive effects, in source order, are
recorded as step lists to state ordering properties between durable commits
and mirror updates. -/

/-- A primitive effect of a config-mutating registry operation. -/
inductive MutStep where
  | dbWrite
  | dbCommit
  | mirrorWrite
  deriving DecidableEq, Repr

/-- Steps of `register_channel` (`MessageRegistry.py` lines 140-153):
`DELETE FROM channels`, `INSERT INTO channels`, `commit`, then
`self.channels[cfg.id] = cfg`. -/
def registerChannelSteps : List MutStep :=
  [.dbWrite, .dbWrite, .dbCommit, .mirrorWrite]

/-- Steps of `deregister_channel` (`MessageRegistry.py` lines 155-164) when
the channel is present: `del self.channels[channel]` first, then
`DELETE FROM channels`, then `commit`.  When absent, nothing happens. -/
def deregisterChannelSteps (present : Bool) : List MutStep :=
  if present then [.mirrorWrite, .dbWrite, .dbCommit] else []

/-- A step list updates the mirror only after a durable commit when every
mirror write is preceded by some commit. -/
def mirrorOnlyAfterCommit (s : List MutStep) : Prop :=
  ∀ i : Fin s.length, s.get i = .mirrorWrite →
    ∃ j : Fin s.length, j.val < i.val ∧ s.get j = .dbCommit

instance (s : List MutStep) : Decidable (mirrorOnlyAfterCommit s) := by
  unfold mirrorOnlyAfterCommit
  infer_instance

/-! ### Wake scheduler (`AutoDeleteBot._shorten_sleep` / `_sleep_until`) -/

/-- Scheduler state: `self.wake_time` and whether `self.active_sleep` holds a
live task handle. -/
structure SchedulerState where
  wake_time : Nat
  active_sleep : Bool
  deriving DecidableEq, Repr

/-- Result of `_shorten_sleep`: the updated state and whether
`self.active_sleep.cancel()` was invoked. -/
structure ShortenResult where
  state : SchedulerState
  cancelled : Bool
  deriving DecidableEq, Repr

/-- `_shorten_sleep` (`AutoDeleteBot.py` lines 232-236): if `dt <
self.wake_time`, set `wake_time := dt` and cancel the active sleep when one
exists; otherwise do nothing. -/
def shorten_sleep (s : SchedulerState) (dt : Nat) : ShortenResult :=
  if dt < s.wake_time then
    { state := { s with wake_time := dt }, cancelled := s.active_sleep }
  else
    { state := s, cancelled := false }

/-- Folding a sequence of `_shorten_sleep` calls over the scheduler state. -/
def applyShortens (s : SchedulerState) (ds : List Nat) : SchedulerState :=
  ds.foldl (fun st d => (shorten_sleep st d).state) s

/-- What `_sleep_until` does when its `await self.active_sleep` raises
`CancelledError` (`AutoDeleteBot.py` lines 252-256): re-read
`self.wake_time`; if it equals the `sleeping_until` snapshot the
cancellation is unrelated and re-raised, otherwise the loop restarts with
the new wake time. -/
inductive CancelAction where
  | reraise
  | restart (newWake : Nat)
  deriving DecidableEq, Repr

/-- The cancellation branch of `_sleep_until`. -/
def sleep_cancel_action (sleeping_until current_wake : Nat) : CancelAction :=
  if sleeping_until = current_wake then .reraise else .restart current_wake

/-- Resolution time of one `_sleep_until` invocation starting at `now` with
wake time `wake`, given the deadlines of the `_shorten_sleep` calls that
arrive while the wait is in progress, in order.  A call with `dt < wake`
lowers the wake time and cancels the active sleep; the loop observes a
changed wake time and restarts (`sleep_cancel_action` yields `restart`).  A
call with `dt ≥ wake` changes nothing.  With no further interrupts the
sleep completes at the wake time (immediately when it is already past). -/
def sleep_run (now wake : Nat) : List Nat → Nat
  | [] => max now wake
  | dt :: rest => if dt < wake then sleep_run now dt rest else sleep_run now wake rest

/-! ### Helper lemmas -/

theorem rowVisible_iff (db : DB) (now : Nat) (m : MessageRow) :
    rowVisible db now m = true ↔
      ∃ ch, lookupChannelRow db m.channel_id = some ch ∧
        m.delete_at ≤ now ∧ ch.after < m.message_id := by
  unfold rowVisible
  cases h : lookupChannelRow db m.channel_id with
  | none => simp [h]
  | some ch => simp [h]

theorem mem_pop_fst_iff (r : MessageRegistry) (now c mid : Nat) :
    (c, mid) ∈ (pop_expired_messages r now).1 ↔
      ∃ m ∈ r.db.messages, m.channel_id = c ∧ m.message_id = mid ∧
        m.delete_at ≤ now ∧
        ∃ ch, lookupChannelRow r.db c = some ch ∧ ch.after < mid := by
  simp only [pop_expired_messages, List.mem_map, List.mem_insertionSort,
    expiredSelect, List.mem_filter]
  constructor
  · rintro ⟨m, ⟨hmem, hvis⟩, heq⟩
    obtain ⟨ch, hch, hda, haft⟩ := (rowVisible_iff r.db now m).1 hvis
    obtain ⟨hc, hmid⟩ := Prod.mk.injEq .. ▸ heq
    exact ⟨m, hmem, hc, hmid, hda, ch, hc ▸ hch, hmid ▸ haft⟩
  · rintro ⟨m, hmem, hc, hmid, hda, ch, hch, haft⟩
    refine ⟨m, ⟨hmem, (rowVisible_iff r.db now m).2 ⟨ch, ?_, hda, ?_⟩⟩, ?_⟩
    · rw [hc]; exact hch
    · rw [hmid]; exact haft
    · rw [hc, hmid]

theorem applyShortens_wake_le (ds : List Nat) :
    ∀ s : SchedulerState, (applyShortens s ds).wake_time ≤ s.wake_time := by
  induction ds with
  | nil => intro s; simp [applyShortens]
  | cons d rest ih =>
      intro s
      have step : ((shorten_sleep s d).state).wake_time ≤ s.wake_time := by
        unfold shorten_sleep
        split
        · exact Nat.le_of_lt (by assumption)
        · exact Nat.le_refl _
      calc (applyShortens s (d :: rest)).wake_time
          = (applyShortens (shorten_sleep s d).state rest).wake_time := by
            simp [applyShortens, List.foldl_cons]
        _ ≤ ((shorten_sleep s d).state).wake_time := ih _
        _ ≤ s.wake_time := step

theorem foldl_min_le_init (l : List Nat) : ∀ a : Nat, l.foldl min a ≤ a := by
  induction l with
  | nil => intro a; simp
  | cons d rest ih =>
      intro a
      calc (d :: rest).foldl min a = rest.foldl min (min a d) := by simp
        _ ≤ min a d := ih _
        _ ≤ a := Nat.min_le_left _ _

theorem foldl_min_le_of_mem (l : List Nat) (t : Nat) (ht : t ∈ l) :
    ∀ a : Nat, l.foldl min a ≤ t := by
  induction l with
  | nil => cases ht
  | cons d rest ih =>
      intro a
      rcases List.mem_cons.1 ht with h | h
      · subst h
        calc (t :: rest).foldl min a = rest.foldl min (min a t) := by simp
          _ ≤ min a t := foldl_min_le_init rest _
          _ ≤ t := Nat.min_le_right _ _
      · calc (d :: rest).foldl min a = rest.foldl min (min a d) := by simp
          _ ≤ t := ih h _

theorem sleep_run_eq_foldl (now : Nat) (es : List Nat) :
    ∀ wake : Nat, sleep_run now wake es = max now (es.foldl min wake) := by
  induction es with
  | nil => intro wake; simp [sleep_run]
  | cons d rest ih =>
      intro wake
      by_cases h : d < wake
      · have : min wake d = d := Nat.min_eq_right (Nat.le_of_lt h)
        simp [sleep_run, h, ih, this]
      · have : min wake d = wake := Nat.min_eq_left (Nat.not_lt.1 h)
        simp [sleep_run, h, ih, this]

theorem mem_bulkChunks_subset (l c : List PMsg) (hc : c ∈ bulkChunks l) :
    ∀ x ∈ c, x ∈ l := by
  unfold bulkChunks at hc
  obtain ⟨i, _, heq⟩ := List.mem_map.1 hc
  intro x hx
  rw [← heq] at hx
  exact (List.drop_sublist (i * 100) l).subset
    ((List.take_sublist 100 (l.drop (i * 100))).subset hx)

theorem mem_bulkChunks_length_le (l c : List PMsg) (hc : c ∈ bulkChunks l) :
    c.length ≤ 100 := by
  unfold bulkChunks at hc
  obtain ⟨i, _, heq⟩ := List.mem_map.1 hc
  rw [← heq, List.length_take]
  exact Nat.min_le_left _ _

theorem plan_of_no_bulk (time_limit : Nat) (fetchOk : Bool) (cid : Nat)
    (group : List PMsg)
    (h : group.filter (fun m => decide (time_limit < m.created_at)) = []) :
    planChannelDeletions time_limit fetchOk cid group =
      (group.filter (fun m => decide (m.created_at ≤ time_limit))).map
        (fun m => DeletionCall.single cid m.id) := by
  simp only [planChannelDeletions, h]
  rfl

theorem plan_of_one_bulk (time_limit : Nat) (fetchOk : Bool) (cid : Nat)
    (group : List PMsg)
    (h : (group.filter (fun m => decide (time_limit < m.created_at))).length
      = 1) :
    planChannelDeletions time_limit fetchOk cid group =
      DeletionCall.single cid
          (group.filter (fun m => decide (time_limit < m.created_at))).headI.id
        :: (group.filter (fun m => decide (m.created_at ≤ time_limit))).map
            (fun m => DeletionCall.single cid m.id) := by
  simp only [planChannelDeletions]
  rw [if_pos h]

theorem plan_of_many_bulk (time_limit : Nat) (cid : Nat) (group : List PMsg)
    (h : 2 ≤ (group.filter (fun m => decide (time_limit < m.created_at))).length) :
    planChannelDeletions time_limit true cid group =
      (bulkChunks (group.filter (fun m => decide (time_limit < m.created_at)))).map
          (fun c => DeletionCall.bulk cid (c.map PMsg.id))
        ++ (group.filter (fun m => decide (m.created_at ≤ time_limit))).map
            (fun m => DeletionCall.single cid m.id) := by
  have hne : (!(group.filter
      (fun m => decide (time_limit < m.created_at))).isEmpty) = true := by
    rcases hB : group.filter (fun m => decide (time_limit < m.created_at)) with
      _ | ⟨b, bs⟩
    · rw [hB] at h
      simp at h
    · rw [hB]
      rfl
  simp only [planChannelDeletions]
  rw [if_neg (by omega), if_pos hne, if_pos trivial]

theorem filterMap_some_comp {α β : Type} (g : α → β) (l : List α) :
    l.filterMap (fun a => some (g a)) = l.map g := by
  induction l with
  | nil => rfl
  | cons a t ih => simp [List.filterMap_cons, ih]

/-! ### Claim theorems -/

/-- C3: `pop_expired_messages` returns exactly the pending rows whose
deadline has passed and whose message id clears the owning channel's
current `after` cutoff, yet its DELETE removes every row whose deadline has
passed regardless of the cutoff; nothing becomes durable until the pending
transaction is committed, at which point the whole expired set is gone. -/
theorem c3_pop_select_vs_delete (r : MessageRegistry) (now : Nat) :
    (∀ c mid, ((c, mid) ∈ (pop_expired_messages r now).1 ↔
        ∃ m ∈ r.db.messages, m.channel_id = c ∧ m.message_id = mid ∧
          m.delete_at ≤ now ∧
          ∃ ch, lookupChannelRow r.db c = some ch ∧ ch.after < mid))
    ∧ (pop_expired_messages r now).2.db.messages
        = r.db.messages.filter (fun m => !(decide (m.delete_at ≤ now)))
    ∧ (pop_expired_messages r now).2.committed = r.committed
    ∧ (commitReg (pop_expired_messages r now).2).committed.messages
        = r.db.messages.filter (fun m => !(decide (m.delete_at ≤ now))) :=
  ⟨fun c mid => mem_pop_fst_iff r now c mid, rfl, rfl, rfl⟩

/-- C2: registering a message created at `T` in a channel whose mirror
config has a positive duration stores the deadline `T + duration`, and the
message is then returned by `pop_expired_messages now` iff `now` has
reached the deadline and the message id exceeds the channel's `after`
cutoff. -/
theorem c2_register_deadline_and_pop (r : MessageRegistry)
    (cfg : AutoDeleteChannel) (row : ChannelRow) (c mid T now : Nat)
    (hm : mirrorGet r c = some cfg) (hdpos : 0 < cfg.duration)
    (hrow : lookupChannelRow r.db c = some row)
    (hfresh : ∀ m ∈ r.db.messages, ¬(m.channel_id = c ∧ m.message_id = mid)) :
    (register_message r c mid T).1 = some (T + cfg.duration)
    ∧ (⟨c, mid, T + cfg.duration⟩ : MessageRow)
        ∈ (register_message r c mid T).2.db.messages
    ∧ ((c, mid) ∈ (pop_expired_messages (register_message r c mid T).2 now).1
        ↔ (T + cfg.duration ≤ now ∧ row.after < mid)) := by
  have hreg : register_message r c mid T =
      (some (T + cfg.duration),
        commitReg { r with db :=
          { r.db with messages :=
              r.db.messages ++ [⟨c, mid, T + cfg.duration⟩] } }) := by
    simp only [register_message, hm]
  refine ⟨by rw [hreg], ?_, ?_⟩
  · rw [hreg]
    simp [commitReg]
  · rw [hreg]
    rw [mem_pop_fst_iff]
    constructor
    · rintro ⟨m, hmem, hc, hmid, hda, ch, hch, haft⟩
      have hch2 : lookupChannelRow r.db c = some ch := hch
      rw [hrow] at hch2
      obtain rfl : row = ch := by injection hch2
      rcases List.mem_append.1 hmem with hold | hnew
      · exact absurd ⟨hc, hmid⟩ (hfresh m hold)
      · obtain rfl : m = ⟨c, mid, T + cfg.duration⟩ := by
          simpa using hnew
        exact ⟨hda, haft⟩
    · rintro ⟨hda, haft⟩
      refine ⟨⟨c, mid, T + cfg.duration⟩, ?_, rfl, rfl, hda, row, hrow, haft⟩
      exact List.mem_append.2 (Or.inr (by simp))

/-- C2 witness: one configured channel (duration 5, after cutoff 10), a
fresh message 11 created at time 100, popped at time 105. -/
theorem c2_register_deadline_and_pop_witness :
    (mirrorGet ⟨⟨[⟨1, 5, 10⟩], []⟩, ⟨[⟨1, 5, 10⟩], []⟩, [(1, ⟨1, 5, 10⟩)]⟩ 1
        = some ⟨1, 5, 10⟩
      ∧ 0 < (⟨1, 5, 10⟩ : AutoDeleteChannel).duration
      ∧ lookupChannelRow (⟨[⟨1, 5, 10⟩], []⟩ : DB) 1 = some ⟨1, 5, 10⟩
      ∧ ∀ m ∈ ([] : List MessageRow), ¬(m.channel_id = 1 ∧ m.message_id = 11))
    ∧ ((register_message
          ⟨⟨[⟨1, 5, 10⟩], []⟩, ⟨[⟨1, 5, 10⟩], []⟩, [(1, ⟨1, 5, 10⟩)]⟩
          1 11 100).1 = some (100 + (⟨1, 5, 10⟩ : AutoDeleteChannel).duration)
      ∧ (⟨1, 11, 100 + (⟨1, 5, 10⟩ : AutoDeleteChannel).duration⟩ : MessageRow)
          ∈ (register_message
              ⟨⟨[⟨1, 5, 10⟩], []⟩, ⟨[⟨1, 5, 10⟩], []⟩, [(1, ⟨1, 5, 10⟩)]⟩
              1 11 100).2.db.messages
      ∧ ((1, 11) ∈ (pop_expired_messages
            (register_message
              ⟨⟨[⟨1, 5, 10⟩], []⟩, ⟨[⟨1, 5, 10⟩], []⟩, [(1, ⟨1, 5, 10⟩)]⟩
              1 11 100).2 105).1
          ↔ (100 + (⟨1, 5, 10⟩ : AutoDeleteChannel).duration ≤ 105
              ∧ (⟨1, 5, 10⟩ : ChannelRow).after < 11))) :=
  ⟨⟨by decide, by decide, by decide, by simp⟩,
    c2_register_deadline_and_pop
      ⟨⟨[⟨1, 5, 10⟩], []⟩, ⟨[⟨1, 5, 10⟩], []⟩, [(1, ⟨1, 5, 10⟩)]⟩
      ⟨1, 5, 10⟩ ⟨1, 5, 10⟩ 1 11 100 105
      (by decide) (by decide) (by decide) (by simp)⟩

/-- C1 (code bug): a drain pass in which one channel's group (2+
bulk-eligible messages) resolves `NotFound` runs `deregister_channel`
mid-pass, whose `db.commit()` durably commits the pop's DELETE for every
channel before any deletion outcome is awaited; when another channel's
deletion call then fails fatally, the rollback restores nothing — the
popped entries are permanently removed from durable storage (committed
messages table empty) and a repeated pop with the same `now` returns the
empty set instead of the same batch, although the pass had a fatal
failure.  This contradicts the rollback-on-fatal contract and the source's
own comment that on such a failure the entries in the database should not
be cleared. -/
theorem c1_midpass_commit_defeats_rollback :
    (pop_expired_messages
        ⟨⟨[⟨1, 5, 10⟩, ⟨2, 5, 10⟩], [⟨1, 100, 50⟩, ⟨1, 200, 50⟩, ⟨2, 300, 50⟩]⟩,
          ⟨[⟨1, 5, 10⟩, ⟨2, 5, 10⟩], [⟨1, 100, 50⟩, ⟨1, 200, 50⟩, ⟨2, 300, 50⟩]⟩,
          [(1, ⟨1, 5, 10⟩), (2, ⟨2, 5, 10⟩)]⟩ 50).1
      = [(1, 100), (1, 200), (2, 300)]
    ∧ (((clear_expired_messages false (fun _ => none)
          (fun cid => if cid = 1 then ChannelResolution.notFound
            else ChannelResolution.cached) 0
          ⟨⟨[⟨1, 5, 10⟩, ⟨2, 5, 10⟩],
              [⟨1, 100, 50⟩, ⟨1, 200, 50⟩, ⟨2, 300, 50⟩]⟩,
            ⟨[⟨1, 5, 10⟩, ⟨2, 5, 10⟩],
              [⟨1, 100, 50⟩, ⟨1, 200, 50⟩, ⟨2, 300, 50⟩]⟩,
            [(1, ⟨1, 5, 10⟩), (2, ⟨2, 5, 10⟩)]⟩ 50
          [CallResult.ok, CallResult.ok, CallResult.httpError]).1.zip
          [CallResult.ok, CallResult.ok, CallResult.httpError]).map
          Prod.snd).any callFatal = true
    ∧ (clear_expired_messages false (fun _ => none)
        (fun cid => if cid = 1 then ChannelResolution.notFound
          else ChannelResolution.cached) 0
        ⟨⟨[⟨1, 5, 10⟩, ⟨2, 5, 10⟩],
            [⟨1, 100, 50⟩, ⟨1, 200, 50⟩, ⟨2, 300, 50⟩]⟩,
          ⟨[⟨1, 5, 10⟩, ⟨2, 5, 10⟩],
            [⟨1, 100, 50⟩, ⟨1, 200, 50⟩, ⟨2, 300, 50⟩]⟩,
          [(1, ⟨1, 5, 10⟩), (2, ⟨2, 5, 10⟩)]⟩ 50
        [CallResult.ok, CallResult.ok, CallResult.httpError]).2.committed.messages
      = []
    ∧ (pop_expired_messages (clear_expired_messages false (fun _ => none)
        (fun cid => if cid = 1 then ChannelResolution.notFound
          else ChannelResolution.cached) 0
        ⟨⟨[⟨1, 5, 10⟩, ⟨2, 5, 10⟩],
            [⟨1, 100, 50⟩, ⟨1, 200, 50⟩, ⟨2, 300, 50⟩]⟩,
          ⟨[⟨1, 5, 10⟩, ⟨2, 5, 10⟩],
            [⟨1, 100, 50⟩, ⟨1, 200, 50⟩, ⟨2, 300, 50⟩]⟩,
          [(1, ⟨1, 5, 10⟩), (2, ⟨2, 5, 10⟩)]⟩ 50
        [CallResult.ok, CallResult.ok, CallResult.httpError]).2 50).1
      = [] := by
  decide

/-- C8: deregistering a configured channel returns true and a second call
returns false and changes nothing; the successful call removes the config
from the mirror and from the durable `channels` table, cascades away every
pending message row of that channel, and a subsequent pop returns nothing
for it.  The foreign-key hypothesis states that pending rows of the channel
only exist while its `channels` row does, which the schema enforces. -/
theorem c8_deregister_idempotent_cascade (r : MessageRegistry) (c : Nat)
    (cfg : AutoDeleteChannel) (hconf : mirrorGet r c = some cfg)
    (hfk : ∀ m ∈ r.db.messages, m.channel_id = c →
      r.db.channels.any (fun ch => ch.channel_id == c) = true) :
    (deregister_channel r c).1 = true
    ∧ (deregister_channel (deregister_channel r c).2 c).1 = false
    ∧ (deregister_channel (deregister_channel r c).2 c).2
        = (deregister_channel r c).2
    ∧ mirrorGet (deregister_channel r c).2 c = none
    ∧ lookupChannelRow (deregister_channel r c).2.db c = none
    ∧ lookupChannelRow (deregister_channel r c).2.committed c = none
    ∧ (∀ m ∈ (deregister_channel r c).2.committed.messages, m.channel_id ≠ c)
    ∧ (∀ now mid,
        (c, mid) ∉ (pop_expired_messages (deregister_channel r c).2 now).1) := by
  have hder : deregister_channel r c =
      (true, commitReg
        { r with channels := mirrorDel r.channels c
                 db := deleteChannelRow r.db c }) := by
    simp only [deregister_channel, hconf]
  have hmirror : mirrorGet (deregister_channel r c).2 c = none := by
    rw [hder]
    show (List.find? (fun p => p.1 == c) (mirrorDel r.channels c)).map
      Prod.snd = none
    rw [List.find?_eq_none.2]
    · rfl
    · intro p hp
      have := (List.mem_filter.1 hp).2
      simpa using this
  have hlook : lookupChannelRow (deleteChannelRow r.db c) c = none := by
    unfold deleteChannelRow
    split
    · rw [lookupChannelRow, List.find?_eq_none.2]
      intro ch hch
      have := (List.mem_filter.1 hch).2
      simpa using this
    · rename_i hany
      rw [lookupChannelRow, List.find?_eq_none.2]
      intro ch hch
      intro hb
      exact hany (List.any_eq_true.2 ⟨ch, hch, hb⟩)
  have hmsgs : ∀ m ∈ (deleteChannelRow r.db c).messages, m.channel_id ≠ c := by
    unfold deleteChannelRow
    split
    · intro m hm
      have := (List.mem_filter.1 hm).2
      simpa using this
    · rename_i hany
      intro m hm hc
      exact hany (hfk m hm hc)
  have h2 : deregister_channel (deregister_channel r c).2 c =
      (false, (deregister_channel r c).2) := by
    generalize (deregister_channel r c).2 = r1 at hmirror
    simp only [deregister_channel, hmirror]
  have hdb : (deregister_channel r c).2.db = deleteChannelRow r.db c := by
    rw [hder]
    rfl
  refine ⟨by rw [hder], ?_, ?_, hmirror, ?_, ?_, ?_, ?_⟩
  · rw [h2]
  · rw [h2]
  · rw [hdb]
    exact hlook
  · rw [hder]
    exact hlook
  · rw [hder]
    exact hmsgs
  · intro now mid hmem
    rw [mem_pop_fst_iff] at hmem
    obtain ⟨m, hm, hc, hmid, hda, ch, hch, haft⟩ := hmem
    rw [hdb, hlook] at hch
    cases hch

/-- C8 witness: a registry with one configured channel holding one pending
message; the first deregistration succeeds and empties everything, the
second is a no-op returning false. -/
theorem c8_deregister_idempotent_cascade_witness :
    (mirrorGet ⟨⟨[⟨1, 5, 10⟩], [⟨1, 11, 100⟩]⟩,
        ⟨[⟨1, 5, 10⟩], [⟨1, 11, 100⟩]⟩, [(1, ⟨1, 5, 10⟩)]⟩ 1
      = some ⟨1, 5, 10⟩
      ∧ ∀ m ∈ ([⟨1, 11, 100⟩] : List MessageRow), m.channel_id = 1 →
          ([⟨1, 5, 10⟩] : List ChannelRow).any
            (fun ch => ch.channel_id == 1) = true)
    ∧ ((deregister_channel ⟨⟨[⟨1, 5, 10⟩], [⟨1, 11, 100⟩]⟩,
          ⟨[⟨1, 5, 10⟩], [⟨1, 11, 100⟩]⟩, [(1, ⟨1, 5, 10⟩)]⟩ 1).1 = true
      ∧ (deregister_channel (deregister_channel
            ⟨⟨[⟨1, 5, 10⟩], [⟨1, 11, 100⟩]⟩, ⟨[⟨1, 5, 10⟩], [⟨1, 11, 100⟩]⟩,
              [(1, ⟨1, 5, 10⟩)]⟩ 1).2 1).1 = false
      ∧ (deregister_channel (deregister_channel
            ⟨⟨[⟨1, 5, 10⟩], [⟨1, 11, 100⟩]⟩, ⟨[⟨1, 5, 10⟩], [⟨1, 11, 100⟩]⟩,
              [(1, ⟨1, 5, 10⟩)]⟩ 1).2 1).2
          = (deregister_channel ⟨⟨[⟨1, 5, 10⟩], [⟨1, 11, 100⟩]⟩,
              ⟨[⟨1, 5, 10⟩], [⟨1, 11, 100⟩]⟩, [(1, ⟨1, 5, 10⟩)]⟩ 1).2
      ∧ mirrorGet (deregister_channel ⟨⟨[⟨1, 5, 10⟩], [⟨1, 11, 100⟩]⟩,
          ⟨[⟨1, 5, 10⟩], [⟨1, 11, 100⟩]⟩, [(1, ⟨1, 5, 10⟩)]⟩ 1).2 1 = none
      ∧ lookupChannelRow (deregister_channel ⟨⟨[⟨1, 5, 10⟩], [⟨1, 11, 100⟩]⟩,
          ⟨[⟨1, 5, 10⟩], [⟨1, 11, 100⟩]⟩, [(1, ⟨1, 5, 10⟩)]⟩ 1).2.db 1 = none
      ∧ lookupChannelRow (deregister_channel ⟨⟨[⟨1, 5, 10⟩], [⟨1, 11, 100⟩]⟩,
          ⟨[⟨1, 5, 10⟩], [⟨1, 11, 100⟩]⟩,
          [(1, ⟨1, 5, 10⟩)]⟩ 1).2.committed 1 = none
      ∧ (∀ m ∈ (deregister_channel ⟨⟨[⟨1, 5, 10⟩], [⟨1, 11, 100⟩]⟩,
            ⟨[⟨1, 5, 10⟩], [⟨1, 11, 100⟩]⟩,
            [(1, ⟨1, 5, 10⟩)]⟩ 1).2.committed.messages, m.channel_id ≠ 1)
      ∧ (∀ now mid, (1, mid) ∉ (pop_expired_messages
            (deregister_channel ⟨⟨[⟨1, 5, 10⟩], [⟨1, 11, 100⟩]⟩,
              ⟨[⟨1, 5, 10⟩], [⟨1, 11, 100⟩]⟩,
              [(1, ⟨1, 5, 10⟩)]⟩ 1).2 now).1)) :=
  ⟨⟨by decide, by decide⟩,
    c8_deregister_idempotent_cascade
      ⟨⟨[⟨1, 5, 10⟩], [⟨1, 11, 100⟩]⟩, ⟨[⟨1, 5, 10⟩], [⟨1, 11, 100⟩]⟩,
        [(1, ⟨1, 5, 10⟩)]⟩ 1 ⟨1, 5, 10⟩ (by decide) (by decide)⟩

/-- C9: re-enabling an already-configured channel performs a cascading
delete of its `channels` row before re-inserting it, so every pending
message row of the channel is physically removed — the re-enabled channel's
queue is empty (in the working and the committed state alike) and a
subsequent pop returns nothing for it. -/
theorem c9_reenable_clears_queue (r : MessageRegistry)
    (cfg : AutoDeleteChannel) (hdur : cfg.duration ≠ 0)
    (halready : r.db.channels.any (fun ch => ch.channel_id == cfg.id) = true) :
    ∃ r1, register_channel r cfg = some r1
      ∧ (∀ m ∈ r1.db.messages, m.channel_id ≠ cfg.id)
      ∧ (∀ m ∈ r1.committed.messages, m.channel_id ≠ cfg.id)
      ∧ (∀ now mid, (cfg.id, mid) ∉ (pop_expired_messages r1 now).1) := by
  have hreg : register_channel r cfg = some
      { commitReg { r with db :=
          { deleteChannelRow r.db cfg.id with channels :=
              (deleteChannelRow r.db cfg.id).channels
                ++ [⟨cfg.id, cfg.duration, cfg.after⟩] } } with
        channels := mirrorSet
          (commitReg { r with db :=
            { deleteChannelRow r.db cfg.id with channels :=
                (deleteChannelRow r.db cfg.id).channels
                  ++ [⟨cfg.id, cfg.duration, cfg.after⟩] } }).channels cfg } := by
    simp only [register_channel, hdur, if_false]
  have hmsgs : ∀ m ∈ (deleteChannelRow r.db cfg.id).messages,
      m.channel_id ≠ cfg.id := by
    unfold deleteChannelRow
    rw [if_pos halready]
    intro m hm
    have := (List.mem_filter.1 hm).2
    simpa using this
  refine ⟨_, hreg, ?_, ?_, ?_⟩
  · exact hmsgs
  · exact hmsgs
  · intro now mid hmem
    rw [mem_pop_fst_iff] at hmem
    obtain ⟨m, hm, hc, hmid, hda, ch, hch, haft⟩ := hmem
    exact hmsgs m hm (hc ▸ rfl)

/-- C9 witness: a channel with one stale pending message is re-enabled with
a new duration and cutoff; the queue comes out empty. -/
theorem c9_reenable_clears_queue_witness :
    ((⟨7, 99, 50⟩ : AutoDeleteChannel).duration ≠ 0
      ∧ ([⟨7, 5, 10⟩] : List ChannelRow).any
          (fun ch => ch.channel_id == (⟨7, 99, 50⟩ : AutoDeleteChannel).id)
          = true)
    ∧ ∃ r1, register_channel ⟨⟨[⟨7, 5, 10⟩], [⟨7, 11, 100⟩]⟩,
        ⟨[⟨7, 5, 10⟩], [⟨7, 11, 100⟩]⟩, [(7, ⟨7, 5, 10⟩)]⟩ ⟨7, 99, 50⟩
        = some r1
      ∧ (∀ m ∈ r1.db.messages, m.channel_id ≠ (⟨7, 99, 50⟩ : AutoDeleteChannel).id)
      ∧ (∀ m ∈ r1.committed.messages,
          m.channel_id ≠ (⟨7, 99, 50⟩ : AutoDeleteChannel).id)
      ∧ (∀ now mid, ((⟨7, 99, 50⟩ : AutoDeleteChannel).id, mid)
          ∉ (pop_expired_messages r1 now).1) :=
  ⟨⟨by decide, by decide⟩,
    c9_reenable_clears_queue
      ⟨⟨[⟨7, 5, 10⟩], [⟨7, 11, 100⟩]⟩, ⟨[⟨7, 5, 10⟩], [⟨7, 11, 100⟩]⟩,
        [(7, ⟨7, 5, 10⟩)]⟩ ⟨7, 99, 50⟩ (by decide) (by decide)⟩

/-- C7: in the per-channel deletion plan (channel resolution succeeding),
every message at or past the bulk-delete age ceiling gets a single-delete
call and never rides in a bulk chunk; a group whose bulk-eligible part is
exactly one message yields a single-delete and no bulk call at all; bulk
chunks never exceed 100 messages; and 250 bulk-eligible messages yield
exactly the bulk calls of sizes 100, 100 and 50. -/
theorem c7_age_partition_and_chunking (time_limit cid : Nat)
    (group : List PMsg) (hnd : (group.map PMsg.id).Nodup) :
    (∀ m ∈ group, m.created_at ≤ time_limit →
      DeletionCall.single cid m.id
          ∈ planChannelDeletions time_limit true cid group
      ∧ ∀ ids, DeletionCall.bulk cid ids
            ∈ planChannelDeletions time_limit true cid group → m.id ∉ ids)
    ∧ ((group.filter (fun m => decide (time_limit < m.created_at))).length = 1 →
      DeletionCall.single cid
          (group.filter (fun m => decide (time_limit < m.created_at))).headI.id
        ∈ planChannelDeletions time_limit true cid group
      ∧ ∀ ids, DeletionCall.bulk cid ids
          ∉ planChannelDeletions time_limit true cid group)
    ∧ (∀ ids, DeletionCall.bulk cid ids
          ∈ planChannelDeletions time_limit true cid group →
        ids.length ≤ 100)
    ∧ ((group.filter (fun m => decide (time_limit < m.created_at))).length = 250 →
      (planChannelDeletions time_limit true cid group).filterMap bulkSize
        = [100, 100, 50]) := by
  have hsplit :
      (group.filter (fun m => decide (time_limit < m.created_at))).length = 1
      ∨ (group.filter (fun m => decide (time_limit < m.created_at))).length ≠ 1 :=
    Decidable.em _
  have no_bulk_in_singles : ∀ ids,
      DeletionCall.bulk cid ids
        ∉ (group.filter (fun m => decide (m.created_at ≤ time_limit))).map
            (fun m => DeletionCall.single cid m.id) := by
    intro ids hmem
    obtain ⟨x, _, hx⟩ := List.mem_map.1 hmem
    cases hx
  refine ⟨?_, ?_, ?_, ?_⟩
  · intro m hm hold
    have hS : DeletionCall.single cid m.id
        ∈ (group.filter (fun m => decide (m.created_at ≤ time_limit))).map
            (fun m => DeletionCall.single cid m.id) :=
      List.mem_map_of_mem _ (List.mem_filter.2 ⟨hm, by simpa using hold⟩)
    have avoid_bulk : ∀ ids,
        DeletionCall.bulk cid ids
          ∈ (bulkChunks (group.filter
              (fun m => decide (time_limit < m.created_at)))).map
              (fun c => DeletionCall.bulk cid (c.map PMsg.id)) →
        m.id ∉ ids := by
      intro ids hmem hin
      obtain ⟨chunk, hchunk, heq⟩ := List.mem_map.1 hmem
      obtain rfl : chunk.map PMsg.id = ids := by injection heq
      obtain ⟨b, hbchunk, hbid⟩ := List.mem_map.1 hin
      have hbB := mem_bulkChunks_subset _ _ hchunk b hbchunk
      have hbF := List.mem_filter.1 hbB
      have hbnew : time_limit < b.created_at := by simpa using hbF.2
      have : b = m := List.inj_on_of_nodup_map hnd hbF.1 hm hbid
      rw [this] at hbnew
      omega
    rcases Nat.lt_or_ge
      (group.filter (fun m => decide (time_limit < m.created_at))).length 2 with
      hlt | hge
    · interval_cases hlen :
        (group.filter (fun m => decide (time_limit < m.created_at))).length
      · rw [plan_of_no_bulk time_limit true cid group
          (List.length_eq_zero.1 hlen)]
        exact ⟨hS, fun ids hmem _ => no_bulk_in_singles ids hmem⟩
      · rw [plan_of_one_bulk time_limit true cid group hlen]
        refine ⟨List.mem_cons_of_mem _ hS, fun ids hmem hin => ?_⟩
        rcases List.mem_cons.1 hmem with hhd | htl
        · cases hhd
        · exact no_bulk_in_singles ids htl
    · rw [plan_of_many_bulk time_limit cid group hge]
      refine ⟨List.mem_append.2 (Or.inr hS), fun ids hmem hin => ?_⟩
      rcases List.mem_append.1 hmem with hl | hr
      · exact avoid_bulk ids hl hin
      · exact no_bulk_in_singles ids hr
  · intro hlen
    rw [plan_of_one_bulk time_limit true cid group hlen]
    refine ⟨List.mem_cons_self _ _, fun ids hmem => ?_⟩
    rcases List.mem_cons.1 hmem with hhd | htl
    · cases hhd
    · exact no_bulk_in_singles ids htl
  · intro ids hmem
    rcases Nat.lt_or_ge
      (group.filter (fun m => decide (time_limit < m.created_at))).length 2 with
      hlt | hge
    · interval_cases hlen :
        (group.filter (fun m => decide (time_limit < m.created_at))).length
      · rw [plan_of_no_bulk time_limit true cid group
          (List.length_eq_zero.1 hlen)] at hmem
        exact absurd hmem (no_bulk_in_singles ids)
      · rw [plan_of_one_bulk time_limit true cid group hlen] at hmem
        rcases List.mem_cons.1 hmem with hhd | htl
        · cases hhd
        · exact absurd htl (no_bulk_in_singles ids)
    · rw [plan_of_many_bulk time_limit cid group hge] at hmem
      rcases List.mem_append.1 hmem with hl | hr
      · obtain ⟨chunk, hchunk, heq⟩ := List.mem_map.1 hl
        obtain rfl : chunk.map PMsg.id = ids := by injection heq
        rw [List.length_map]
        exact mem_bulkChunks_length_le _ _ hchunk
      · exact absurd hr (no_bulk_in_singles ids)
  · intro hlen
    rw [plan_of_many_bulk time_limit cid group (by omega)]
    rw [List.filterMap_append]
    have hsingles : ((group.filter
        (fun m => decide (m.created_at ≤ time_limit))).map
          (fun m => DeletionCall.single cid m.id)).filterMap bulkSize = [] := by
      rw [List.filterMap_map]
      have : (bulkSize ∘ fun m : PMsg => DeletionCall.single cid m.id)
          = fun _ => none := rfl
      rw [this]
      simp
    have hbulks : ((bulkChunks (group.filter
        (fun m => decide (time_limit < m.created_at)))).map
          (fun c => DeletionCall.bulk cid (c.map PMsg.id))).filterMap bulkSize
        = (bulkChunks (group.filter
            (fun m => decide (time_limit < m.created_at)))).map List.length := by
      rw [List.filterMap_map]
      have : (bulkSize ∘ fun c : List PMsg => DeletionCall.bulk cid (c.map PMsg.id))
          = fun c : List PMsg => some c.length := by
        funext c
        show some (c.map PMsg.id).length = some c.length
        rw [List.length_map]
      rw [this, filterMap_some_comp]
    rw [hsingles, hbulks, List.append_nil]
    unfold bulkChunks
    rw [List.map_map, hlen]
    have hr3 : (250 + 99) / 100 = 3 := by norm_num
    rw [hr3]
    have : List.range 3 = [0, 1, 2] := by decide
    rw [this]
    simp [List.length_take, List.length_drop, hlen]

/-- C7 witness: a three-message group with two bulk-eligible messages (ids
10 and 20) and one too-old message (id 3), against a bulk age limit of 5. -/
theorem c7_age_partition_and_chunking_witness :
    (([⟨1, 10, 10⟩, ⟨1, 20, 20⟩, ⟨1, 3, 3⟩] : List PMsg).map PMsg.id).Nodup
    ∧ ((∀ m ∈ ([⟨1, 10, 10⟩, ⟨1, 20, 20⟩, ⟨1, 3, 3⟩] : List PMsg),
        m.created_at ≤ 5 →
        DeletionCall.single 1 m.id
            ∈ planChannelDeletions 5 true 1 [⟨1, 10, 10⟩, ⟨1, 20, 20⟩, ⟨1, 3, 3⟩]
        ∧ ∀ ids, DeletionCall.bulk 1 ids
              ∈ planChannelDeletions 5 true 1
                  [⟨1, 10, 10⟩, ⟨1, 20, 20⟩, ⟨1, 3, 3⟩] → m.id ∉ ids)
      ∧ ((([⟨1, 10, 10⟩, ⟨1, 20, 20⟩, ⟨1, 3, 3⟩] : List PMsg).filter
            (fun m => decide (5 < m.created_at))).length = 1 →
        DeletionCall.single 1
            (([⟨1, 10, 10⟩, ⟨1, 20, 20⟩, ⟨1, 3, 3⟩] : List PMsg).filter
              (fun m => decide (5 < m.created_at))).headI.id
          ∈ planChannelDeletions 5 true 1 [⟨1, 10, 10⟩, ⟨1, 20, 20⟩, ⟨1, 3, 3⟩]
        ∧ ∀ ids, DeletionCall.bulk 1 ids
            ∉ planChannelDeletions 5 true 1 [⟨1, 10, 10⟩, ⟨1, 20, 20⟩, ⟨1, 3, 3⟩])
      ∧ (∀ ids, DeletionCall.bulk 1 ids
            ∈ planChannelDeletions 5 true 1 [⟨1, 10, 10⟩, ⟨1, 20, 20⟩, ⟨1, 3, 3⟩] →
          ids.length ≤ 100)
      ∧ ((([⟨1, 10, 10⟩, ⟨1, 20, 20⟩, ⟨1, 3, 3⟩] : List PMsg).filter
            (fun m => decide (5 < m.created_at))).length = 250 →
        (planChannelDeletions 5 true 1
            [⟨1, 10, 10⟩, ⟨1, 20, 20⟩, ⟨1, 3, 3⟩]).filterMap bulkSize
          = [100, 100, 50])) :=
  ⟨by decide,
    c7_age_partition_and_chunking 5 1 [⟨1, 10, 10⟩, ⟨1, 20, 20⟩, ⟨1, 3, 3⟩]
      (by decide)⟩

/-- C4 (code bug): with pin protection enabled, a popped channel group of
exactly one unpinned message is still excluded from deletion, whatever the
pin-fetch outcome would have been, because the source never awaits
`is_protected_message` and the coroutine object is always truthy; the
awaited check itself would report the message unprotected and the awaited
semantics would keep it in the group. -/
theorem c4_singleton_pin_check_not_awaited :
    filterPins true none [⟨1, 5, 5⟩] = []
    ∧ filterPins true (some []) [⟨1, 5, 5⟩] = []
    ∧ is_protected_message (some false) = false
    ∧ filterSingletonAwaited (some false) [⟨1, 5, 5⟩] = [⟨1, 5, 5⟩] := by
  decide

/-- C5 counterexample: `deregister_channel` mutates the in-memory mirror
before its durable write commits, so the mutation-ordering property claimed
for every config-mutating operation fails on the deregister trace. -/
theorem c5_deregister_mirror_before_commit :
    ¬ mirrorOnlyAfterCommit (deregisterChannelSteps true) := by
  decide

/-- C5 amended: `register_channel` updates the in-memory mirror only after
the durable write commits, while `deregister_channel` removes the mirror
entry first and only then performs the durable delete and commit — so the
mirror can transiently lack a config that is still durable, though it never
contains one that is not yet durable. -/
theorem c5_mutation_order :
    mirrorOnlyAfterCommit registerChannelSteps
    ∧ deregisterChannelSteps true
        = [MutStep.mirrorWrite, MutStep.dbWrite, MutStep.dbCommit] := by
  constructor
  · decide
  · rfl

/-- C6: if `t0` is below the current wake time then `_shorten_sleep t0` sets
the wake time to `t0` and cancels the active wait; the cancellation branch
of `_sleep_until` restarts with the new wake time whenever the wake time
changed and re-raises when it is unchanged; consequently a wait in progress
(`now ≤ t0`) that receives a shorten to `t0` resolves at or before `t0`. -/
theorem c6_early_wake (s : SchedulerState) (t0 now : Nat) (events : List Nat)
    (hlt : t0 < s.wake_time) (hact : s.active_sleep = true)
    (hmem : t0 ∈ events) (hnow : now ≤ t0) :
    ((shorten_sleep s t0).state.wake_time = t0
      ∧ (shorten_sleep s t0).cancelled = true)
    ∧ (∀ su w, su ≠ w → sleep_cancel_action su w = CancelAction.restart w)
    ∧ (∀ su, sleep_cancel_action su su = CancelAction.reraise)
    ∧ sleep_run now s.wake_time events ≤ t0 := by
  refine ⟨⟨?_, ?_⟩, ?_, ?_, ?_⟩
  · unfold shorten_sleep
    rw [if_pos hlt]
  · unfold shorten_sleep
    rw [if_pos hlt, hact]
  · intro su w hne
    unfold sleep_cancel_action
    rw [if_neg hne]
  · intro su
    unfold sleep_cancel_action
    rw [if_pos rfl]
  · rw [sleep_run_eq_foldl]
    exact Nat.max_le.2 ⟨hnow, foldl_min_le_of_mem events t0 hmem s.wake_time⟩

/-- C6 witness: concrete instance with wake time 10, an active sleep, a
shorten to 5 arriving among the interrupts, and now = 3. -/
theorem c6_early_wake_witness :
    (5 < (⟨10, true⟩ : SchedulerState).wake_time
      ∧ (⟨10, true⟩ : SchedulerState).active_sleep = true
      ∧ 5 ∈ [7, 5] ∧ 3 ≤ 5)
    ∧ (((shorten_sleep ⟨10, true⟩ 5).state.wake_time = 5
        ∧ (shorten_sleep ⟨10, true⟩ 5).cancelled = true)
      ∧ (∀ su w, su ≠ w → sleep_cancel_action su w = CancelAction.restart w)
      ∧ (∀ su, sleep_cancel_action su su = CancelAction.reraise)
      ∧ sleep_run 3 (⟨10, true⟩ : SchedulerState).wake_time [7, 5] ≤ 5) :=
  ⟨⟨by decide, rfl, by decide, by decide⟩,
    c6_early_wake ⟨10, true⟩ 5 3 [7, 5] (by decide) rfl (by decide) (by decide)⟩

/-- C10: a `_shorten_sleep` call whose deadline is at or past the current
wake time leaves the scheduler state unchanged and cancels nothing; and any
sequence of `_shorten_sleep` calls can only lower the wake time, never
raise it. -/
theorem c10_shorten_never_delays (s : SchedulerState) (dt : Nat)
    (h : s.wake_time ≤ dt) :
    shorten_sleep s dt = ⟨s, false⟩
    ∧ ∀ ds : List Nat, (applyShortens s ds).wake_time ≤ s.wake_time := by
  constructor
  · unfold shorten_sleep
    rw [if_neg (Nat.not_lt.2 h)]
  · intro ds
    exact applyShortens_wake_le ds s

/-- C10 witness: concrete instance with wake time 5 and a late deadline 7. -/
theorem c10_shorten_never_delays_witness :
    (⟨5, true⟩ : SchedulerState).wake_time ≤ 7
    ∧ (shorten_sleep ⟨5, true⟩ 7 = ⟨⟨5, true⟩, false⟩
      ∧ ∀ ds : List Nat,
        (applyShortens ⟨5, true⟩ ds).wake_time
          ≤ (⟨5, true⟩ : SchedulerState).wake_time) :=
  ⟨by decide, c10_shorten_never_delays ⟨5, true⟩ 7 (by decide)⟩

end DiscordAutoDelete
